import Mathlib

/-!
Verification development for the hedwig matrix push gateway.

The Rust sources are shallowly embedded: Rust `String` values become `List Char`
(so that all computations are kernel-reducible), machine integers become `Nat`
(no overflow is relevant at the sizes involved: retry counters, unread counts),
fallible functions return `Except`, and the provider SDK send calls are
abstracted as boolean oracles giving the outcome of each send attempt.
Floating-point computations in `jitter.rs` are idealised over the reals.
-/

namespace Hedwig

/-- Rust strings are modelled as lists of characters. -/
abbrev Str := List Char

/-! ## Data model (src/models.rs) -/

/-- Pusher-specific device data (models.rs `Data`): only the well-known
`data_message` field participates in dispatch decisions; the remaining
flattened map is irrelevant to the verified claims and omitted. -/
structure Data where
  data_message : Option Str
  deriving Repr, DecidableEq

/-- A target device of a notification (models.rs `Device`); the provider
preference field is the one read by `api.rs` (`use_direct_apns`).
Fields not read by the dispatch path (`pushkey_ts`, `tweaks`) are omitted. -/
structure Device where
  app_id : Str
  pushkey : Str
  data : Option Data
  use_direct_apns : Option Bool
  deriving Repr, DecidableEq

/-- Unread/missed-call counts (models.rs `Counts`). -/
structure Counts where
  unread : Option Nat
  missed_calls : Option Nat
  deriving Repr, DecidableEq

/-- The inbound notification (models.rs `Notification`); fields that play no
role in any verified claim (sender, room names, prio, ephemeral, mac,
user_is_target) are omitted. -/
structure Notification where
  event_id : Option Str
  room_id : Option Str
  type : Option Str
  counts : Option Counts
  content : Option Str
  devices : List Device
  ciphertext : Option Str
  deriving Repr, DecidableEq

/-- What kind of data message a device wants (models.rs `DataMessageType`). -/
inductive DataMessageType where
  | None
  | Android
  | Ios
  deriving Repr, DecidableEq

/-- The legacy app-id suffix `".data_message"`. -/
def suffixDataMessage : Str := ".data_message".toList

/-- Translation of `Device::data_message_type` (models.rs lines 105-117):
the legacy app-id suffix wins, otherwise the declared `data_message` field
is inspected. -/
def Device.data_message_type (d : Device) : DataMessageType :=
  if suffixDataMessage.isSuffixOf d.app_id then DataMessageType.Android
  else
    match d.data.bind (fun x => x.data_message) with
    | some msg =>
        if msg = "android".toList then DataMessageType.Android
        else if msg = "ios".toList then DataMessageType.Ios
        else DataMessageType.None
    | none => DataMessageType.None

/-- The `unwrap_or_default` unread count used throughout pusher.rs:
`notification.counts.as_ref().and_then(|c| c.unread).unwrap_or_default()`. -/
def Notification.unreadOrDefault (n : Notification) : Nat :=
  (n.counts.bind (fun c => c.unread)).getD 0

/-! ## Settings (src/settings.rs), restricted to the fields the dispatch
and payload paths read. -/

/-- Gateway settings as read by `matrix_push` and the pusher functions. -/
structure Settings where
  app_id : Str
  fcm_push_max_retries : Nat
  notification_title : Str
  notification_body : Str
  deriving Repr, DecidableEq

/-! ## Dispatch engine (src/api.rs `matrix_push`, src/pusher.rs) -/

/-- The two downstream provider families. -/
inductive Provider where
  | Fcm
  | Apns
  deriving Repr, DecidableEq

/-- Translation of the provider selection in api.rs lines 67-75:
`match dev.use_direct_apns { Some(true) => apns, _ => fcm }`. -/
def routeProvider (d : Device) : Provider :=
  match d.use_direct_apns with
  | some true => Provider.Apns
  | _ => Provider.Fcm

/-- Outcome of one invocation of a `push_notification_*` function:
whether it returned `Ok`, and how many provider `send` calls it made. -/
structure AttemptTrace where
  ok : Bool
  senderCalls : Nat
  deriving Repr, DecidableEq

/-- Outcome shape of `push_notification_fcm` (pusher.rs lines 49-51, 265):
the app-id check `!device.app_id.starts_with(&settings.hedwig.app_id)`
fails before any `send`; otherwise the single `send` call decides. -/
def pushNotificationFcmAttempt (s : Settings) (d : Device) (senderOk : Bool) :
    AttemptTrace :=
  if ¬ s.app_id.isPrefixOf d.app_id then ⟨false, 0⟩ else ⟨senderOk, 1⟩

/-- Outcome shape of `push_notification_apns` (pusher.rs lines 277-279, 311):
identical app-id guard, then one `send` call. -/
def pushNotificationApnsAttempt (s : Settings) (d : Device) (senderOk : Bool) :
    AttemptTrace :=
  if ¬ s.app_id.isPrefixOf d.app_id then ⟨false, 0⟩ else ⟨senderOk, 1⟩

/-- One iteration body of the retry loop in api.rs lines 67-75: route to the
provider preferred by the device and run the matching pusher function. -/
def pushAttempt (s : Settings) (d : Device) (senderOk : Bool) : AttemptTrace :=
  match d.use_direct_apns with
  | some true => pushNotificationApnsAttempt s d senderOk
  | _ => pushNotificationFcmAttempt s d senderOk

/-- Result of one device's retry loop: terminal outcome, number of
`push_notification_*` invocations, number of provider `send` calls, and the
backoff sleeps performed (in milliseconds, in order). -/
structure DeviceResult where
  succeeded : Bool
  attempts : Nat
  senderCalls : Nat
  sleeps : List Nat
  deriving Repr, DecidableEq

/-- Translation of the `loop` in api.rs lines 64-98. `senderOk j` is the
outcome the provider would return for the `j`-th send of this device;
`i` is the number of failed invocations so far (the Rust `attempt` counter
equals `i + 1` right after a failure), `retryMs` the current backoff.
The fuel argument only serves Lean's termination checking; `matrixPushDevice`
supplies `max_retries + 1`, which is shown sufficient (the fuel-exhausted
branch is never taken) by `dispatchLoop_fuel_irrelevant`. -/
def dispatchLoop (s : Settings) (d : Device) (senderOk : Nat → Bool) :
    Nat → Nat → Nat → DeviceResult
  | _retryMs, i, 0 => ⟨false, i, 0, []⟩
  | retryMs, i, fuel + 1 =>
    let t := pushAttempt s d (senderOk i)
    if t.ok then ⟨true, i + 1, t.senderCalls, []⟩
    else if s.fcm_push_max_retries < i + 1 then ⟨false, i + 1, t.senderCalls, []⟩
    else
      let r := dispatchLoop s d senderOk (retryMs * 2) (i + 1) fuel
      ⟨r.succeeded, r.attempts, t.senderCalls + r.senderCalls, retryMs :: r.sleeps⟩

/-- The per-device retry loop as entered by `matrix_push`: initial backoff
250 ms, attempt counter 0. -/
def matrixPushDevice (s : Settings) (d : Device) (senderOk : Nat → Bool) :
    DeviceResult :=
  dispatchLoop s d senderOk 250 0 (s.fcm_push_max_retries + 1)

/-- The sequential fan-out of api.rs lines 57-99 building the `rejected`
vector: device `idx` consults the sender oracle `senderOk idx`. -/
def matrixPushRejected (s : Settings) (senderOk : Nat → Nat → Bool) :
    List Device → Nat → List Str
  | [], _ => []
  | d :: rest, idx =>
    (if (matrixPushDevice s d (senderOk idx)).succeeded then []
     else [d.pushkey])
      ++ matrixPushRejected s senderOk rest (idx + 1)

/-- Observable output of `matrix_push` (api.rs lines 54-114): the response's
rejected list, whether the notifications counter was incremented
(`rejected.len() < notification.devices.len()`), the attribute value that
increment carries (`notification.r#type`, absent when the field is absent),
and the devices-counter increment. -/
structure PushOutput where
  rejected : List Str
  notifIncremented : Bool
  notifTag : Option Str
  devicesCount : Nat
  deriving Repr, DecidableEq

/-- Translation of the `matrix_push` handler body (api.rs lines 54-114). -/
def matrix_push (s : Settings) (n : Notification) (senderOk : Nat → Nat → Bool) :
    PushOutput :=
  let rejected := matrixPushRejected s senderOk n.devices 0
  { rejected := rejected
    notifIncremented := rejected.length < n.devices.length
    notifTag := n.type
    devicesCount := n.devices.length }

/-! ## Derived notification type (src/lib.rs `ProcessedNotification`,
lines 80-101) -/

/-- The type of notification (lib.rs `NotificationType`). -/
inductive NotificationType where
  | Notification
  | Data
  | Clearing
  deriving Repr, DecidableEq

/-- The `Display` rendering of a `NotificationType` (lib.rs lines 55-67). -/
def NotificationType.toStr : NotificationType → Str
  | NotificationType.Notification => "notification".toList
  | NotificationType.Data => "data".toList
  | NotificationType.Clearing => "clearing".toList

/-- Translation of `ProcessedNotification::is_data_message`: the first
device's app id equals the configured app id with the `.data_message`
suffix appended. -/
def is_data_message (app_id : Str) (first_device : Device) : Bool :=
  first_device.app_id == app_id ++ suffixDataMessage

/-- Translation of `ProcessedNotification::is_clearing`. -/
def is_clearing (app_id : Str) (n : Notification) (first_device : Device) :
    Bool :=
  n.event_id.isNone
    || (!is_data_message app_id first_device && n.unreadOrDefault == 0)

/-- Translation of `ProcessedNotification::type` (lib.rs lines 95-101). -/
def notificationTypeOf (app_id : Str) (n : Notification)
    (first_device : Device) : NotificationType :=
  match is_clearing app_id n first_device, is_data_message app_id first_device with
  | false, true => NotificationType.Data
  | false, false => NotificationType.Notification
  | true, _ => NotificationType.Clearing

/-! ## Jitter history (src/jitter.rs, `past_jitters`)

The `BinaryHeap<Reverse<Instant>>` is modelled by its contents — a list of
instants, instants being time points modelled as naturals. `peek` and `pop`
on the reversed ordering act on the smallest (oldest) instant. -/

/-- The effect of `BinaryHeap::pop` on the reversed ordering: remove one
occurrence of the minimum (oldest) instant. -/
def heapPopOldest (l : List Nat) : List Nat :=
  match l.min? with
  | none => l
  | some m => l.erase m

/-- Translation of `Jitter::push_successful_jitter` (jitter.rs lines 63-70):
push the new instant, then pop the oldest if the history now exceeds 25. -/
def push_successful_jitter (past_jitters : List Nat) (when : Nat) :
    List Nat :=
  let past := when :: past_jitters
  if 25 < past.length then heapPopOldest past else past

/-! ## Jitter delay computation (src/jitter.rs, real-valued)

The floating-point arithmetic of `get_jitter_delay` is idealised over the
real numbers; durations and instants are real-valued seconds. The
`thread_rng().gen_range(Duration::default()..=jitter)` sampler is abstracted
as a `draw` function, constrained in the theorems to return a value inside
the closed interval it is given, matching `gen_range` on `0..=jitter`. -/

noncomputable section

/-- The constant `a = (2 - sqrt(2)) / 2` of `Jitter::jitter`
(jitter.rs line 55). -/
def jitterA : ℝ := (2 - Real.sqrt 2) / 2

/-- The value `1 / (freq * a)` computed by `Jitter::jitter`
(jitter.rs lines 54-57), as a real number of seconds. -/
def jitterOf (freq : ℝ) : ℝ := 1 / (freq * jitterA)

/-- Panic behaviour of `Jitter::jitter`: in `f64` arithmetic
`1.0 / (freq * a)` is `+inf` when `freq * a == 0.0` and negative when
`freq * a < 0.0`, and `Duration::from_secs_f64` panics on non-finite or
negative input. A panic is modelled as `none`. -/
def jitterChecked (freq : ℝ) : Option ℝ :=
  if 0 < freq * jitterA then some (jitterOf freq) else none

/-- The jitter state read by `get_jitter_delay`: the history contents and
the configured ceiling `max_jitter` (seconds). -/
structure JitterState where
  past_jitters : List ℝ
  max_jitter : ℝ

/-- The `let mut jitter = if ... else ...` of `Jitter::get_jitter_delay`
(jitter.rs lines 77-84), relative to the current instant `now` (so that the
`elapsed()` of the oldest sample, returned by `peek` on the reversed heap
ordering, is `now - oldest`): the bootstrap frequency 0.25 below 4 samples,
otherwise `len / elapsed(oldest)`, with the `map_or` default `max_jitter`
for an empty heap. -/
def rawJitter (st : JitterState) (now : ℝ) : ℝ :=
  if st.past_jitters.length < 4 then jitterOf 0.25
  else
    match st.past_jitters.min? with
    | none => st.max_jitter
    | some oldest =>
        jitterOf ((st.past_jitters.length : ℝ) / (now - oldest))

/-- The clamp `if jitter > max_jitter { jitter = max_jitter }`
(jitter.rs lines 86-88). -/
def clampedJitter (st : JitterState) (now : ℝ) : ℝ :=
  if st.max_jitter < rawJitter st now then st.max_jitter else rawJitter st now

/-- Translation of `Jitter::get_jitter_delay` (jitter.rs lines 74-91):
the clamped jitter bound is handed to the uniform sampler
`gen_range(Duration::default()..=jitter)`, abstracted as `draw`. -/
def get_jitter_delay (st : JitterState) (now : ℝ) (draw : ℝ → ℝ) : ℝ :=
  draw (clampedJitter st now)

/-- The delay bound as the spec's §4.1 words describe it: frequency is the
bootstrap 0.25/s below 4 samples and `sample_count / age_of_oldest_sample`
otherwise, the raw bound is `1 / (freq * a)` with `a = (2 - sqrt(2)) / 2`,
clamped to `max_jitter`. Modelled from the spec for comparison against
`get_jitter_delay`. -/
def specDelayBound (st : JitterState) (now : ℝ) : ℝ :=
  let freq : ℝ :=
    if st.past_jitters.length < 4 then 0.25
    else (st.past_jitters.length : ℝ) / (now - ((st.past_jitters.min?).getD 0))
  min (1 / (freq * ((2 - Real.sqrt 2) / 2))) st.max_jitter

end

/-! ## Payload construction (src/pusher.rs `push_notification_fcm`)

Only the payload observables governed by the claims are modelled: presence
and content of the visible notification block, presence of the data block,
the Android config, and the APNS badge. -/

/-- The literal template tag `"<count>"` substituted by pusher.rs. -/
def countTag : Str := "<count>".toList

/-- Fuel-driven core of Rust `str::replace` for the fixed `"<count>"` tag;
called with fuel equal to the string length, which bounds the number of
steps, so the fuel-exhausted branch is unreachable. -/
def replaceCountGo (count : Str) : Nat → Str → Str
  | _, [] => []
  | 0, s => s
  | fuel + 1, c :: rest =>
    if countTag.isPrefixOf (c :: rest) then
      count ++ replaceCountGo count fuel (rest.drop (countTag.length - 1))
    else c :: replaceCountGo count fuel rest

/-- Rust `template.replace("<count>", count)`. -/
def replaceCount (template : Str) (count : Str) : Str :=
  replaceCountGo count template.length template

/-- Decimal rendering of the unread count (`count.to_string()`). -/
def natToStr (n : Nat) : Str := (toString n).toList

/-- The `firebae_cm::Notification` built at pusher.rs lines 55-61 (the
`image` field is always `None` and omitted). -/
structure FcmNotificationMsg where
  title : Str
  body : Str
  deriving Repr, DecidableEq

/-- The data block attached by `Notification::data` (models.rs lines
167-187): a single-device-scoped copy of the notification. The JSON string
serialisation is abstracted; the serialised values themselves are kept.
Fields of the source struct not modelled on `Notification` are omitted. -/
structure NotificationData where
  event_id : Option Str
  room_id : Option Str
  counts : Option Counts
  content : Option Str
  devices : List Device
  ciphertext : Option Str
  deriving Repr, DecidableEq

/-- Translation of `Notification::data`: note the single-element `devices`
list ("pretending there is only one device to avoid going over any size
limits"). -/
def Notification.data (n : Notification) (device : Device) : NotificationData :=
  { event_id := n.event_id
    room_id := n.room_id
    counts := n.counts
    content := n.content
    devices := [device]
    ciphertext := n.ciphertext }

/-- The observables of the `firebae_cm::MessageBody` assembled by
`push_notification_fcm`: the visible notification block (`body.notification`),
the data block (`body.data`), whether an Android config was attached, whether
the Android-notification sub-block (channel/icon/sound, no title or body) was
attached, and the badge carried in the APNS `aps` payload when one is set. -/
structure MessageBody where
  notification : Option FcmNotificationMsg
  dataBlock : Option NotificationData
  hasAndroidConfig : Bool
  hasAndroidNotificationBlock : Bool
  apnsBadge : Option Nat
  deriving Repr, DecidableEq

/-- Error codes of src/error.rs used on this path. -/
inductive ErrCode where
  | BadJson
  deriving Repr, DecidableEq

/-- The error payload of src/error.rs `HedwigError`. -/
structure HedwigError where
  error : Str
  errcode : ErrCode
  deriving Repr, DecidableEq

/-- Translation of `push_notification_fcm` (pusher.rs lines 43-268) down to
the modelled payload observables: app-id guard, unread count, templated
visible notification, then the three shapes selected by
`device.data_message_type()` — Android data message (data block only),
generic (visible block iff `room_id` is present, Android notification
sub-block, APNS badge), and iOS data message (data block, visible fallback
iff `room_id` is present, APNS badge). -/
def push_notification_fcm (s : Settings) (n : Notification) (device : Device) :
    Except HedwigError MessageBody :=
  if ¬ s.app_id.isPrefixOf device.app_id then
    Except.error ⟨"Invalid app id!".toList, ErrCode.BadJson⟩
  else
    let count := n.unreadOrDefault
    let fcm_notification : FcmNotificationMsg :=
      ⟨replaceCount s.notification_title (natToStr count),
        replaceCount s.notification_body (natToStr count)⟩
    match device.data_message_type with
    | DataMessageType.Android =>
        Except.ok
          { notification := none
            dataBlock := some (n.data device)
            hasAndroidConfig := true
            hasAndroidNotificationBlock := false
            apnsBadge := none }
    | DataMessageType.None =>
        Except.ok
          { notification :=
              if n.room_id.isSome then some fcm_notification else none
            dataBlock := none
            hasAndroidConfig := true
            hasAndroidNotificationBlock := true
            apnsBadge := some count }
    | DataMessageType.Ios =>
        Except.ok
          { notification :=
              if n.room_id.isSome then some fcm_notification else none
            dataBlock := some (n.data device)
            hasAndroidConfig := false
            hasAndroidNotificationBlock := false
            apnsBadge := some count }

/-- The spec's §4.3 counts-only detection, modelled from the spec's words
for comparison with the code: true when (no event id AND no ciphertext) OR
(counts present AND unread == 0) OR (counts present AND ciphertext present).
The spec's "explicit counts-only flag" disjunct has no counterpart on this
code base's `Notification` and is omitted. -/
def countsOnlyClaim (n : Notification) : Bool :=
  (n.event_id.isNone && n.ciphertext.isNone)
    || (n.counts.isSome && n.unreadOrDefault == 0)
    || (n.counts.isSome && n.ciphertext.isSome)

/-! ## Helper lemmas about the retry loop -/

/-- Both pusher functions behave identically at the abstraction level of this
embedding: guard on the app-id prefix, then one send. -/
theorem pushAttempt_eq (s : Settings) (d : Device) (b : Bool) :
    pushAttempt s d b
      = if s.app_id.isPrefixOf d.app_id then (⟨b, 1⟩ : AttemptTrace)
        else ⟨false, 0⟩ := by
  by_cases h : s.app_id.isPrefixOf d.app_id = true
  · cases hv : d.use_direct_apns with
    | none =>
        simp [pushAttempt, hv, pushNotificationFcmAttempt, h]
    | some v =>
        cases v <;>
          simp [pushAttempt, hv, pushNotificationFcmAttempt,
            pushNotificationApnsAttempt, h]
  · cases hv : d.use_direct_apns with
    | none =>
        simp [pushAttempt, hv, pushNotificationFcmAttempt, h]
    | some v =>
        cases v <;>
          simp [pushAttempt, hv, pushNotificationFcmAttempt,
            pushNotificationApnsAttempt, h]

/-- Any fuel at least `max_retries + 1 - i` produces the same run: the
fuel-exhausted branch of `dispatchLoop` is unreachable from the entry point,
i.e. the Rust loop genuinely terminates within the attempt bound. -/
theorem dispatchLoop_fuel_irrelevant (s : Settings) (d : Device)
    (ok : Nat → Bool) :
    ∀ fuel₁ fuel₂ retryMs i, i ≤ s.fcm_push_max_retries →
      s.fcm_push_max_retries + 1 - i ≤ fuel₁ →
      s.fcm_push_max_retries + 1 - i ≤ fuel₂ →
      dispatchLoop s d ok retryMs i fuel₁ = dispatchLoop s d ok retryMs i fuel₂ := by
  intro fuel₁
  induction fuel₁ with
  | zero => intro fuel₂ retryMs i hi h₁ h₂; omega
  | succ f ih =>
    intro fuel₂ retryMs i hi h₁ h₂
    cases fuel₂ with
    | zero => omega
    | succ f₂ =>
      simp only [dispatchLoop]
      by_cases hok : (pushAttempt s d (ok i)).ok
      · simp [hok]
      · simp only [hok, Bool.false_eq_true, if_false]
        by_cases hstop : s.fcm_push_max_retries < i + 1
        · simp [hstop]
        · simp only [hstop, if_false]
          rw [ih f₂ (retryMs * 2) (i + 1) (by omega) (by omega) (by omega)]

/-- Characterisation of the terminal outcome: the loop succeeds iff some
attempt within the retry budget returns `Ok`. -/
theorem dispatchLoop_succeeded_iff (s : Settings) (d : Device)
    (ok : Nat → Bool) :
    ∀ fuel retryMs i, i ≤ s.fcm_push_max_retries →
      s.fcm_push_max_retries + 1 - i ≤ fuel →
      ((dispatchLoop s d ok retryMs i fuel).succeeded = true
        ↔ ∃ j, i ≤ j ∧ j ≤ s.fcm_push_max_retries
            ∧ (pushAttempt s d (ok j)).ok = true) := by
  intro fuel
  induction fuel with
  | zero => intro retryMs i hi h; omega
  | succ f ih =>
    intro retryMs i hi h
    simp only [dispatchLoop]
    by_cases hok : (pushAttempt s d (ok i)).ok
    · simp only [hok, if_true]
      constructor
      · intro _; exact ⟨i, le_refl i, hi, hok⟩
      · intro _; trivial
    · simp only [hok, Bool.false_eq_true, if_false]
      by_cases hstop : s.fcm_push_max_retries < i + 1
      · simp only [hstop, if_true]
        constructor
        · intro hfalse; exact absurd hfalse (by simp)
        · rintro ⟨j, hij, hjm, hj⟩
          have : j = i := by omega
          subst this
          exact absurd hj (by simp [hok])
      · simp only [hstop, if_false]
        rw [ih (retryMs * 2) (i + 1) (by omega) (by omega)]
        constructor
        · rintro ⟨j, hij, hjm, hj⟩; exact ⟨j, by omega, hjm, hj⟩
        · rintro ⟨j, hij, hjm, hj⟩
          refine ⟨j, ?_, hjm, hj⟩
          rcases Nat.eq_or_lt_of_le hij with rfl | hlt
          · exact absurd hj (by simp [hok])
          · omega

/-- Attempt-count bounds: the loop always makes at least one and at most
`max_retries + 1` invocations (counting from loop entry at counter `i`). -/
theorem dispatchLoop_attempts_bounds (s : Settings) (d : Device)
    (ok : Nat → Bool) :
    ∀ fuel retryMs i, i ≤ s.fcm_push_max_retries →
      s.fcm_push_max_retries + 1 - i ≤ fuel →
      i + 1 ≤ (dispatchLoop s d ok retryMs i fuel).attempts
        ∧ (dispatchLoop s d ok retryMs i fuel).attempts
            ≤ s.fcm_push_max_retries + 1 := by
  intro fuel
  induction fuel with
  | zero => intro retryMs i hi h; omega
  | succ f ih =>
    intro retryMs i hi h
    simp only [dispatchLoop]
    by_cases hok : (pushAttempt s d (ok i)).ok
    · simp only [hok, if_true]; exact ⟨by omega, by omega⟩
    · simp only [hok, Bool.false_eq_true, if_false]
      by_cases hstop : s.fcm_push_max_retries < i + 1
      · simp only [hstop, if_true]; exact ⟨by omega, by omega⟩
      · simp only [hstop, if_false]
        have := ih (retryMs * 2) (i + 1) (by omega) (by omega)
        exact ⟨by omega, by omega⟩

/-- Folding one backoff sleep into the doubled-backoff tail: the sleeps of a
run starting at backoff `a` are `a` followed by the sleeps starting at `2a`. -/
theorem backoff_sleeps_cons (a m : Nat) :
    a :: (List.range m).map (fun k => a * 2 * 2 ^ k)
      = (List.range (m + 1)).map (fun k => a * 2 ^ k) := by
  rw [List.range_succ_eq_map, List.map_cons, List.map_map]
  simp only [pow_zero, Nat.mul_one]
  congr 1
  apply List.map_congr_left
  intro k _
  simp only [Function.comp_apply, pow_succ]
  ring

/-- Complete run description when every attempt fails: all retries are spent,
the backoff doubles from the current value after each failed attempt, and a
send happens per attempt exactly when the app-id guard passes. -/
theorem dispatchLoop_allFail (s : Settings) (d : Device) (ok : Nat → Bool)
    (hfail : ∀ j, (pushAttempt s d (ok j)).ok = false) :
    ∀ fuel retryMs i, i ≤ s.fcm_push_max_retries →
      s.fcm_push_max_retries + 1 - i ≤ fuel →
      dispatchLoop s d ok retryMs i fuel
        = ⟨false, s.fcm_push_max_retries + 1,
            (if s.app_id.isPrefixOf d.app_id then
              s.fcm_push_max_retries + 1 - i else 0),
            (List.range (s.fcm_push_max_retries - i)).map
              (fun k => retryMs * 2 ^ k)⟩ := by
  intro fuel
  induction fuel with
  | zero => intro retryMs i hi h; omega
  | succ f ih =>
    intro retryMs i hi h
    have hcalls : (pushAttempt s d (ok i)).senderCalls
        = if s.app_id.isPrefixOf d.app_id then 1 else 0 := by
      rw [pushAttempt_eq]; by_cases hp : s.app_id.isPrefixOf d.app_id <;> simp [hp]
    simp only [dispatchLoop, hfail i, Bool.false_eq_true, if_false]
    by_cases hstop : s.fcm_push_max_retries < i + 1
    · have hii : i = s.fcm_push_max_retries := by omega
      subst hii
      have h1 : s.fcm_push_max_retries + 1 - s.fcm_push_max_retries = 1 := by omega
      simp only [hstop, if_true, Nat.sub_self, List.range_zero, List.map_nil,
        hcalls, h1]
    · simp only [hstop, if_false]
      rw [ih (retryMs * 2) (i + 1) (by omega) (by omega)]
      have hrange : s.fcm_push_max_retries - i
          = (s.fcm_push_max_retries - (i + 1)) + 1 := by omega
      have hsc : (if s.app_id.isPrefixOf d.app_id then 1 else 0)
            + (if s.app_id.isPrefixOf d.app_id then
                s.fcm_push_max_retries + 1 - (i + 1) else 0)
          = if s.app_id.isPrefixOf d.app_id then
              s.fcm_push_max_retries + 1 - i else 0 := by
        by_cases hp : s.app_id.isPrefixOf d.app_id <;> simp [hp] <;> omega
      rw [hrange, ← backoff_sleeps_cons, hcalls, hsc]

/-- The entry-point fuel `max_retries + 1` is adequate, so the loop lemmas
apply at `matrixPushDevice` with counter 0. Succeeded-run characterisation. -/
theorem matrixPushDevice_succeeded_iff (s : Settings) (d : Device)
    (ok : Nat → Bool) :
    (matrixPushDevice s d ok).succeeded = true
      ↔ ∃ j, j ≤ s.fcm_push_max_retries ∧ (pushAttempt s d (ok j)).ok = true := by
  rw [matrixPushDevice,
    dispatchLoop_succeeded_iff s d ok _ 250 0 (Nat.zero_le _) (by omega)]
  constructor
  · rintro ⟨j, _, hjm, hj⟩; exact ⟨j, hjm, hj⟩
  · rintro ⟨j, hjm, hj⟩; exact ⟨j, Nat.zero_le _, hjm, hj⟩

/-- Attempt-count bounds at the entry point. -/
theorem matrixPushDevice_attempts_bounds (s : Settings) (d : Device)
    (ok : Nat → Bool) :
    1 ≤ (matrixPushDevice s d ok).attempts
      ∧ (matrixPushDevice s d ok).attempts ≤ s.fcm_push_max_retries + 1 := by
  unfold matrixPushDevice
  have := dispatchLoop_attempts_bounds s d ok (s.fcm_push_max_retries + 1)
    250 0 (Nat.zero_le _) (by omega)
  omega

/-- Run description at the entry point when every attempt fails. -/
theorem matrixPushDevice_allFail (s : Settings) (d : Device) (ok : Nat → Bool)
    (hfail : ∀ j, (pushAttempt s d (ok j)).ok = false) :
    matrixPushDevice s d ok
      = ⟨false, s.fcm_push_max_retries + 1,
          (if s.app_id.isPrefixOf d.app_id then
            s.fcm_push_max_retries + 1 else 0),
          (List.range s.fcm_push_max_retries).map (fun k => 250 * 2 ^ k)⟩ := by
  rw [matrixPushDevice,
    dispatchLoop_allFail s d ok hfail _ 250 0 (Nat.zero_le _) (by omega)]
  simp

/-- The rejected list built by the sequential fan-out is exactly the push keys
of the non-succeeding devices, filtered out of the enumerated device list in
input order. -/
theorem matrixPushRejected_eq_filter (s : Settings) (ok : Nat → Nat → Bool) :
    ∀ (devs : List Device) (idx : Nat),
      matrixPushRejected s ok devs idx
        = ((List.enumFrom idx devs).filter
            (fun p => !(matrixPushDevice s p.2 (ok p.1)).succeeded)).map
            (fun p => p.2.pushkey) := by
  intro devs
  induction devs with
  | nil => intro idx; rfl
  | cons d rest ih =>
    intro idx
    rw [matrixPushRejected, List.enumFrom_cons, List.filter_cons]
    by_cases hd : (matrixPushDevice s d (ok idx)).succeeded = true
    · simp [hd, ih (idx + 1)]
    · simp only [Bool.not_eq_true] at hd
      simp [hd, ih (idx + 1)]

/-- A device that fails its run contributes its push key to the rejected
list of the request it belongs to. -/
theorem mem_matrixPushRejected_of_failed (s : Settings) (ok : Nat → Nat → Bool) :
    ∀ (devs : List Device) (idx i : Nat) (d : Device),
      devs[i]? = some d →
      (matrixPushDevice s d (ok (idx + i))).succeeded = false →
      d.pushkey ∈ matrixPushRejected s ok devs idx := by
  intro devs
  induction devs with
  | nil => intro idx i d hd; simp at hd
  | cons d₀ rest ih =>
    intro idx i d hd hfailed
    cases i with
    | zero =>
      simp only [List.getElem?_cons_zero, Option.some.injEq] at hd
      subst hd
      simp only [Nat.add_zero] at hfailed
      simp [matrixPushRejected, hfailed]
    | succ i' =>
      simp only [List.getElem?_cons_succ] at hd
      have := ih (idx + 1) i' d hd (by
        have : idx + 1 + i' = idx + (i' + 1) := by omega
        rw [this]; exact hfailed)
      simp [matrixPushRejected, this]

/-- The rejected list never exceeds the device count. -/
theorem matrixPushRejected_length_le (s : Settings) (ok : Nat → Nat → Bool) :
    ∀ (devs : List Device) (idx : Nat),
      (matrixPushRejected s ok devs idx).length ≤ devs.length := by
  intro devs
  induction devs with
  | nil => intro idx; simp [matrixPushRejected]
  | cons d rest ih =>
    intro idx
    rw [matrixPushRejected]
    by_cases hd : (matrixPushDevice s d (ok idx)).succeeded = true
    · simp only [hd, if_true, List.nil_append, List.length_cons]
      exact Nat.le_succ_of_le (ih (idx + 1))
    · simp only [Bool.not_eq_true] at hd
      simp only [hd, Bool.false_eq_true, if_false, List.singleton_append,
        List.length_cons]
      exact Nat.succ_le_succ (ih (idx + 1))

/-- Strictly fewer rejections than devices happens exactly when some device
succeeded. -/
theorem matrixPushRejected_length_lt_iff (s : Settings) (ok : Nat → Nat → Bool) :
    ∀ (devs : List Device) (idx : Nat),
      (matrixPushRejected s ok devs idx).length < devs.length
        ↔ ∃ i d, devs[i]? = some d
            ∧ (matrixPushDevice s d (ok (idx + i))).succeeded = true := by
  intro devs
  induction devs with
  | nil => intro idx; simp [matrixPushRejected]
  | cons d₀ rest ih =>
    intro idx
    rw [matrixPushRejected]
    by_cases hd : (matrixPushDevice s d₀ (ok idx)).succeeded = true
    · simp only [hd, if_true, List.nil_append, List.length_cons]
      constructor
      · intro _; exact ⟨0, d₀, by simp, by simpa using hd⟩
      · intro _
        exact Nat.lt_succ_of_le (matrixPushRejected_length_le s ok rest (idx + 1))
    · simp only [Bool.not_eq_true] at hd
      simp only [hd, Bool.false_eq_true, if_false, List.singleton_append,
        List.length_cons, Nat.succ_lt_succ_iff]
      rw [ih (idx + 1)]
      constructor
      · rintro ⟨i, d, hget, hsucc⟩
        refine ⟨i + 1, d, by simpa using hget, ?_⟩
        have : idx + (i + 1) = idx + 1 + i := by omega
        rw [this]; exact hsucc
      · rintro ⟨i, d, hget, hsucc⟩
        cases i with
        | zero =>
          simp only [List.getElem?_cons_zero, Option.some.injEq] at hget
          subst hget
          simp only [Nat.add_zero] at hsucc
          rw [hsucc] at hd; exact absurd hd (by simp)
        | succ i' =>
          simp only [List.getElem?_cons_succ] at hget
          refine ⟨i', d, hget, ?_⟩
          have : idx + 1 + i' = idx + (i' + 1) := by omega
          rw [this]; exact hsucc

/-! ## Claims about the dispatch engine -/

/-- C1: for every inbound notification and every sequence of per-device
sender results, each input device's retry loop reaches exactly one terminal
outcome (it terminates after between 1 and `max_retries + 1` attempts, and
succeeds precisely when some attempt within the retry budget succeeds), and
the response's rejected list contains exactly the push keys of the
non-succeeding devices, in the same relative order as the input device
list. -/
theorem C1_matrix_push_terminal_outcomes (s : Settings) (n : Notification)
    (ok : Nat → Nat → Bool) :
    (matrix_push s n ok).rejected
      = ((List.enumFrom 0 n.devices).filter
          (fun p => !(matrixPushDevice s p.2 (ok p.1)).succeeded)).map
          (fun p => p.2.pushkey)
    ∧ ∀ i d, n.devices[i]? = some d →
        1 ≤ (matrixPushDevice s d (ok i)).attempts
        ∧ (matrixPushDevice s d (ok i)).attempts ≤ s.fcm_push_max_retries + 1
        ∧ ((matrixPushDevice s d (ok i)).succeeded = true
            ↔ ∃ j, j ≤ s.fcm_push_max_retries
                ∧ (pushAttempt s d (ok i j)).ok = true) := by
  refine ⟨matrixPushRejected_eq_filter s ok n.devices 0, ?_⟩
  intro i d _
  exact ⟨(matrixPushDevice_attempts_bounds s d (ok i)).1,
    (matrixPushDevice_attempts_bounds s d (ok i)).2,
    matrixPushDevice_succeeded_iff s d (ok i)⟩

/-- Witness instantiating C1 at a concrete request. -/
theorem C1_matrix_push_terminal_outcomes_witness :
    1 ≤ (matrixPushDevice (⟨"app".toList, 1, [], []⟩ : Settings)
          (⟨"app".toList, "pk".toList, none, none⟩ : Device)
          ((fun _ _ => true) 0)).attempts :=
  ((C1_matrix_push_terminal_outcomes ⟨"app".toList, 1, [], []⟩
      ⟨none, none, none, none, none,
        [⟨"app".toList, "pk".toList, none, none⟩], none⟩
      (fun _ _ => true)).2 0
      ⟨"app".toList, "pk".toList, none, none⟩ (by decide)).1

/-- C2: a device whose sender fails on every attempt is retried until the
budget is exhausted: exactly `max_retries + 1` pusher invocations and sender
calls, backoff sleeps of 250 ms doubling after each failed attempt, and the
device's push key ends up in the rejected list. -/
theorem C2_permanent_failure_retries (s : Settings) (n : Notification)
    (ok : Nat → Nat → Bool) (i : Nat) (d : Device)
    (hd : n.devices[i]? = some d)
    (happ : s.app_id.isPrefixOf d.app_id = true)
    (hfail : ∀ j, ok i j = false) :
    (matrixPushDevice s d (ok i)).succeeded = false
    ∧ (matrixPushDevice s d (ok i)).attempts = s.fcm_push_max_retries + 1
    ∧ (matrixPushDevice s d (ok i)).senderCalls = s.fcm_push_max_retries + 1
    ∧ (matrixPushDevice s d (ok i)).sleeps
        = (List.range s.fcm_push_max_retries).map (fun k => 250 * 2 ^ k)
    ∧ d.pushkey ∈ (matrix_push s n ok).rejected := by
  have hfail' : ∀ j, (pushAttempt s d (ok i j)).ok = false := by
    intro j
    rw [pushAttempt_eq]
    simp [happ, hfail j]
  have hrun := matrixPushDevice_allFail s d (ok i) hfail'
  refine ⟨by rw [hrun], by rw [hrun], ?_, by rw [hrun], ?_⟩
  · rw [hrun]; simp [happ]
  · have hmem := mem_matrixPushRejected_of_failed s ok n.devices 0 i d hd
      (by rw [Nat.zero_add, hrun])
    simpa [matrix_push] using hmem

/-- Witness instantiating C2: two retries configured, all attempts fail. -/
theorem C2_permanent_failure_retries_witness :
    (matrixPushDevice (⟨"app".toList, 2, [], []⟩ : Settings)
        (⟨"app".toList, "pk".toList, none, none⟩ : Device)
        ((fun _ _ => false) 0)).sleeps
      = (List.range 2).map (fun k => 250 * 2 ^ k) :=
  (C2_permanent_failure_retries ⟨"app".toList, 2, [], []⟩
    ⟨none, none, none, none, none,
      [⟨"app".toList, "pk".toList, none, none⟩], none⟩
    (fun _ _ => false) 0 ⟨"app".toList, "pk".toList, none, none⟩
    (by decide) (by decide) (fun _ => rfl)).2.2.2.1

/-- C3 fails on the code in two ways, shown at concrete inputs. First, the
guard in `push_notification_fcm` is a prefix check, so a device whose app id
(`"appX"`) neither equals the configured app id (`"app"`) nor equals it with
the legacy `".data_message"` suffix appended still reaches the sender (one
send call) and, when the sender succeeds, is not rejected at all. Second, a
device whose app id fails even the prefix check is not rejected immediately:
with `max_retries = 1` the loop performs a 250 ms backoff sleep before
rejecting. -/
theorem C3_counterexample :
    ("appX".toList ≠ "app".toList
      ∧ "appX".toList ≠ "app".toList ++ suffixDataMessage)
    ∧ (matrixPushDevice (⟨"app".toList, 0, [], []⟩ : Settings)
        (⟨"appX".toList, "pk".toList, none, none⟩ : Device)
        (fun _ => true)).senderCalls = 1
    ∧ (matrix_push (⟨"app".toList, 0, [], []⟩ : Settings)
        ⟨none, none, none, none, none,
          [⟨"appX".toList, "pk".toList, none, none⟩], none⟩
        (fun _ _ => true)).rejected = []
    ∧ (matrixPushDevice (⟨"app".toList, 1, [], []⟩ : Settings)
        (⟨"other".toList, "pk".toList, none, none⟩ : Device)
        (fun _ => false)).sleeps = [250] := by decide

/-- C3 (amended): for every device whose app identifier does not carry the
gateway's configured app id as a prefix, no sender call is ever made; the
device is rejected only after `max_retries + 1` failed pusher invocations
with the usual backoff sleeps in between, and its push key then appears in
the rejected list. -/
theorem C3_amended_invalid_app_id (s : Settings) (n : Notification)
    (ok : Nat → Nat → Bool) (i : Nat) (d : Device)
    (hd : n.devices[i]? = some d)
    (happ : s.app_id.isPrefixOf d.app_id = false) :
    (matrixPushDevice s d (ok i)).senderCalls = 0
    ∧ (matrixPushDevice s d (ok i)).succeeded = false
    ∧ (matrixPushDevice s d (ok i)).attempts = s.fcm_push_max_retries + 1
    ∧ (matrixPushDevice s d (ok i)).sleeps
        = (List.range s.fcm_push_max_retries).map (fun k => 250 * 2 ^ k)
    ∧ d.pushkey ∈ (matrix_push s n ok).rejected := by
  have hfail' : ∀ j, (pushAttempt s d (ok i j)).ok = false := by
    intro j
    rw [pushAttempt_eq]
    simp [happ]
  have hrun := matrixPushDevice_allFail s d (ok i) hfail'
  refine ⟨?_, by rw [hrun], by rw [hrun], by rw [hrun], ?_⟩
  · rw [hrun]; simp [happ]
  · have hmem := mem_matrixPushRejected_of_failed s ok n.devices 0 i d hd
      (by rw [Nat.zero_add, hrun])
    simpa [matrix_push] using hmem

/-- Witness instantiating the amended C3 at a mismatched device. -/
theorem C3_amended_invalid_app_id_witness :
    (matrixPushDevice (⟨"app".toList, 1, [], []⟩ : Settings)
        (⟨"other".toList, "pk".toList, none, none⟩ : Device)
        ((fun _ _ => true) 0)).senderCalls = 0 :=
  (C3_amended_invalid_app_id ⟨"app".toList, 1, [], []⟩
    ⟨none, none, none, none, none,
      [⟨"other".toList, "pk".toList, none, none⟩], none⟩
    (fun _ _ => true) 0 ⟨"other".toList, "pk".toList, none, none⟩
    (by decide) (by decide)).1

/-- C8 fails on the code: the `use_direct_apns` preference is consulted
before the device's shape, so a device whose declared data-message kind is
"android" (a non-generic shape) is still routed to the Apple-family sender
when it prefers the Apple provider — contradicting the claim that only
generic-shape devices can be routed there. -/
theorem C8_counterexample :
    routeProvider ⟨"app".toList, "pk".toList,
        some ⟨some ("android".toList)⟩, some true⟩ = Provider.Apns
    ∧ Device.data_message_type
        ⟨"app".toList, "pk".toList, some ⟨some ("android".toList)⟩, some true⟩
        = DataMessageType.Android
    ∧ DataMessageType.Android ≠ DataMessageType.None := by decide

/-- C8 (amended): provider routing is decided solely by the device's explicit
Apple-provider preference — `use_direct_apns = Some(true)` routes to the
Apple-family sender regardless of shape, everything else goes through the
Android-family provider's channel. Within the payload shaping, selection is
first-match-wins: the legacy `.data_message` app-id suffix forces the Android
data-message shape; otherwise the declared kind "android"/"ios" selects the
Android data-message/Apple data-only shape, any other declaration (or none)
the generic shape; and on the Android-family path an app id without the
configured prefix is refused before any send. -/
theorem C8_amended_routing (d : Device) :
    (routeProvider d = Provider.Apns ↔ d.use_direct_apns = some true)
    ∧ (suffixDataMessage.isSuffixOf d.app_id = true →
        d.data_message_type = DataMessageType.Android)
    ∧ (suffixDataMessage.isSuffixOf d.app_id = false →
        (d.data.bind (fun x => x.data_message) = some ("android".toList) →
          d.data_message_type = DataMessageType.Android)
        ∧ (d.data.bind (fun x => x.data_message) = some ("ios".toList) →
          d.data_message_type = DataMessageType.Ios)
        ∧ (∀ m, d.data.bind (fun x => x.data_message) = some m →
            m ≠ "android".toList → m ≠ "ios".toList →
            d.data_message_type = DataMessageType.None)
        ∧ (d.data.bind (fun x => x.data_message) = none →
            d.data_message_type = DataMessageType.None))
    ∧ (∀ (s : Settings) (b : Bool), s.app_id.isPrefixOf d.app_id = false →
        (pushNotificationFcmAttempt s d b).ok = false
        ∧ (pushNotificationFcmAttempt s d b).senderCalls = 0) := by
  refine ⟨?_, ?_, ?_, ?_⟩
  · cases hv : d.use_direct_apns with
    | none => simp [routeProvider, hv]
    | some v => cases v <;> simp [routeProvider, hv]
  · intro hs; simp [Device.data_message_type, hs]
  · intro hs
    refine ⟨?_, ?_, ?_, ?_⟩
    · intro hm; simp [Device.data_message_type, hs, hm]
    · intro hm; simp [Device.data_message_type, hs, hm]
    · intro m hm hma hmi
      simp only [Device.data_message_type, hs, Bool.false_eq_true, if_false, hm]
      rw [if_neg hma, if_neg hmi]
    · intro hm; simp [Device.data_message_type, hs, hm]
  · intro s b hp; simp [pushNotificationFcmAttempt, hp]

/-- Witness instantiating the amended C8 at a legacy-suffix device. -/
theorem C8_amended_routing_witness :
    Device.data_message_type
        ⟨"app.data_message".toList, "pk".toList, none, none⟩
      = DataMessageType.Android :=
  (C8_amended_routing
    ⟨"app.data_message".toList, "pk".toList, none, none⟩).2.1 (by decide)

/-- C9 fails on the code: the notifications counter in `matrix_push` is
tagged with the raw `notification.type` string, not with the derived
Clearing/Data/Notification type of `ProcessedNotification::type`. At a
notification with no event id (derived type Clearing) and raw type
`"m.room.message"`, the counter is incremented — one device succeeded — but
the attached tag is `"m.room.message"`, not `"clearing"`. -/
theorem C9_counterexample :
    (matrix_push (⟨"app".toList, 0, [], []⟩ : Settings)
        ⟨none, none, some ("m.room.message".toList), none, none,
          [⟨"app".toList, "pk".toList, none, none⟩], none⟩
        (fun _ _ => true)).notifIncremented = true
    ∧ (matrix_push (⟨"app".toList, 0, [], []⟩ : Settings)
        ⟨none, none, some ("m.room.message".toList), none, none,
          [⟨"app".toList, "pk".toList, none, none⟩], none⟩
        (fun _ _ => true)).notifTag = some ("m.room.message".toList)
    ∧ notificationTypeOf ("app".toList)
        ⟨none, none, some ("m.room.message".toList), none, none,
          [⟨"app".toList, "pk".toList, none, none⟩], none⟩
        ⟨"app".toList, "pk".toList, none, none⟩
        = NotificationType.Clearing
    ∧ some ("m.room.message".toList)
        ≠ some (NotificationType.Clearing.toStr) := by decide

/-- C9 (amended): after a notification finishes processing, the
notification-delivered counter is incremented exactly when at least one
device succeeded, and the increment carries the notification's raw event
type string as its tag (no tag when the field is absent). -/
theorem C9_amended_notification_counter (s : Settings) (n : Notification)
    (ok : Nat → Nat → Bool) :
    ((matrix_push s n ok).notifIncremented = true
      ↔ ∃ i d, n.devices[i]? = some d
          ∧ (matrixPushDevice s d (ok i)).succeeded = true)
    ∧ (matrix_push s n ok).notifTag = n.type
    ∧ (matrix_push s n ok).devicesCount = n.devices.length := by
  refine ⟨?_, rfl, rfl⟩
  have h := matrixPushRejected_length_lt_iff s ok n.devices 0
  simp only [Nat.zero_add] at h
  simpa [matrix_push] using h

/-! ## Helper lemmas about the jitter estimator -/

/-- The constant `a = (2 - sqrt(2)) / 2` is positive. -/
theorem jitterA_pos : 0 < jitterA := by
  have h2 : Real.sqrt 2 < 2 := by
    nlinarith [Real.sq_sqrt (show (0:ℝ) ≤ 2 by norm_num), Real.sqrt_nonneg 2]
  rw [jitterA]
  linarith

/-- The jitter formula is nonnegative at nonnegative frequencies (with the
Lean convention `1 / 0 = 0` matching the `f64` limit `1 / inf = 0` of the
degenerate zero-frequency case). -/
theorem jitterOf_nonneg (freq : ℝ) (h : 0 ≤ freq) : 0 ≤ jitterOf freq :=
  one_div_nonneg.mpr (mul_nonneg h (le_of_lt jitterA_pos))

/-- A nonempty list has a minimum. -/
theorem min?_isSome_of_ne_nil (l : List ℝ) (h : l ≠ []) :
    ∃ m, l.min? = some m := by
  cases l with
  | nil => exact absurd rfl h
  | cons x xs => exact ⟨_, List.min?_cons⟩

/-- The Rust downward clamp is the binary minimum. -/
theorem clamp_eq_min (r mj : ℝ) : (if mj < r then mj else r) = min r mj := by
  by_cases h : mj < r
  · rw [if_pos h, min_eq_right (le_of_lt h)]
  · rw [if_neg h, min_eq_left (not_lt.mp h)]

/-- The pre-clamp jitter value is nonnegative whenever the ceiling is
nonnegative and all recorded instants lie in the past. -/
theorem rawJitter_nonneg (st : JitterState) (now : ℝ)
    (hmax : 0 ≤ st.max_jitter)
    (hpast : ∀ x ∈ st.past_jitters, x ≤ now) :
    0 ≤ rawJitter st now := by
  rw [rawJitter]
  by_cases hlen : st.past_jitters.length < 4
  · rw [if_pos hlen]
    exact jitterOf_nonneg _ (by norm_num)
  · rw [if_neg hlen]
    cases hmin : st.past_jitters.min? with
    | none => exact hmax
    | some oldest =>
      have hms : oldest ∈ st.past_jitters :=
        List.min?_mem (fun a b => min_choice a b) hmin
      have h1 : oldest ≤ now := hpast oldest hms
      exact jitterOf_nonneg _ (div_nonneg (Nat.cast_nonneg _) (by linarith))

/-- The clamped jitter bound lies in `[0, max_jitter]`. -/
theorem clampedJitter_bounds (st : JitterState) (now : ℝ)
    (hmax : 0 ≤ st.max_jitter)
    (hpast : ∀ x ∈ st.past_jitters, x ≤ now) :
    0 ≤ clampedJitter st now ∧ clampedJitter st now ≤ st.max_jitter := by
  rw [clampedJitter]
  by_cases h : st.max_jitter < rawJitter st now
  · rw [if_pos h]
    exact ⟨hmax, le_refl _⟩
  · rw [if_neg h]
    exact ⟨rawJitter_nonneg st now hmax hpast, not_lt.mp h⟩

/-! ## Claims about the jitter estimator -/

/-- C4: for every history state and every in-range random draw,
`get_jitter_delay` returns a duration in the closed interval
`[0, max_jitter]`; in particular, with `max_jitter = 0` it returns 0. -/
theorem C4_jitter_delay_range (st : JitterState) (now : ℝ) (draw : ℝ → ℝ)
    (hdraw : ∀ b, 0 ≤ b → 0 ≤ draw b ∧ draw b ≤ b)
    (hmax : 0 ≤ st.max_jitter)
    (hpast : ∀ x ∈ st.past_jitters, x ≤ now) :
    0 ≤ get_jitter_delay st now draw
    ∧ get_jitter_delay st now draw ≤ st.max_jitter
    ∧ (st.max_jitter = 0 → get_jitter_delay st now draw = 0) := by
  obtain ⟨hcl0, hcl1⟩ := clampedJitter_bounds st now hmax hpast
  obtain ⟨hd0, hd1⟩ := hdraw _ hcl0
  rw [get_jitter_delay]
  refine ⟨hd0, le_trans hd1 hcl1, ?_⟩
  intro h0
  have := le_trans hd1 hcl1
  rw [h0] at this
  linarith

/-- Witness instantiating C4 at the empty history with ceiling 0 and the
identity sampler. -/
theorem C4_jitter_delay_range_witness :
    0 ≤ get_jitter_delay ⟨[], 0⟩ 0 (fun b => b)
    ∧ get_jitter_delay ⟨[], 0⟩ 0 (fun b => b) ≤ (0 : ℝ)
    ∧ ((0 : ℝ) = 0 → get_jitter_delay ⟨[], 0⟩ 0 (fun b => b) = 0) :=
  C4_jitter_delay_range ⟨[], 0⟩ 0 (fun b => b)
    (fun b hb => ⟨hb, le_refl b⟩) (le_refl 0) (by simp)

/-- C5: the jitter history never exceeds 25 entries, and an insertion that
would exceed 25 evicts an oldest stored timestamp — one that is a lower
bound of everything present (the new entry included), never a newer one. -/
theorem C5_history_bound_and_eviction (past : List Nat) (when : Nat)
    (hcap : past.length ≤ 25) :
    (push_successful_jitter past when).length ≤ 25
    ∧ (past.length = 25 →
        ∃ m, (∀ x ∈ when :: past, m ≤ x)
          ∧ ((when :: past : List Nat) : Multiset Nat)
              = m ::ₘ ((push_successful_jitter past when : List Nat) : Multiset Nat)) := by
  by_cases hover : 25 < (when :: past).length
  · obtain ⟨m, hm⟩ : ∃ m, (when :: past).min? = some m := ⟨_, List.min?_cons⟩
    have hm' := hm
    rw [List.min?_eq_some_iff (fun a => le_refl a) (fun a b => min_choice a b)
      (fun a b c => le_min_iff)] at hm'
    obtain ⟨hmem, hle⟩ := hm'
    have hpush : push_successful_jitter past when = (when :: past).erase m := by
      simp only [push_successful_jitter, if_pos hover, heapPopOldest, hm]
    constructor
    · rw [hpush, List.length_erase_of_mem hmem]
      simp only [List.length_cons] at hover ⊢
      omega
    · intro _
      refine ⟨m, hle, ?_⟩
      rw [hpush]
      have hcoe : (((when :: past).erase m : List Nat) : Multiset Nat)
          = ((when :: past : List Nat) : Multiset Nat).erase m := by
        exact_mod_cast (Multiset.coe_erase _ _).symm
      rw [hcoe, Multiset.cons_erase (by exact_mod_cast hmem)]
  · have hpush : push_successful_jitter past when = when :: past := by
      simp only [push_successful_jitter, if_neg hover]
    constructor
    · rw [hpush]
      simp only [List.length_cons] at hover ⊢
      omega
    · intro hlen
      exfalso
      simp only [List.length_cons] at hover
      omega

/-- Witness instantiating C5 at a full history of 25 instants. -/
theorem C5_history_bound_and_eviction_witness :
    (push_successful_jitter (List.range 25) 30).length ≤ 25 :=
  (C5_history_bound_and_eviction (List.range 25) 30 (by decide)).1

/-- C6: the delay handed to the uniform sampler is exactly the bound the
spec's formula describes — bootstrap frequency 0.25/s below 4 samples,
`sample_count / age_of_oldest_sample` otherwise, bound `1 / (freq * a)` with
`a = (2 - sqrt(2)) / 2`, clamped to `max_jitter` — whenever the state is one
the running system can be in (below 4 samples, or a nonempty history). -/
theorem C6_delay_matches_spec_formula (st : JitterState) (now : ℝ)
    (draw : ℝ → ℝ)
    (h : st.past_jitters.length < 4 ∨ st.past_jitters ≠ []) :
    get_jitter_delay st now draw = draw (specDelayBound st now) := by
  rw [get_jitter_delay]
  congr 1
  rw [clampedJitter, clamp_eq_min, specDelayBound]
  by_cases hlen : st.past_jitters.length < 4
  · simp only [rawJitter, if_pos hlen, jitterOf, jitterA]
  · have hne : st.past_jitters ≠ [] := h.resolve_left hlen
    obtain ⟨m, hm⟩ := min?_isSome_of_ne_nil st.past_jitters hne
    simp only [rawJitter, if_neg hlen, hm, Option.getD_some, jitterOf, jitterA]

/-- Witness instantiating C6 at a four-sample history. -/
theorem C6_delay_matches_spec_formula_witness :
    get_jitter_delay ⟨[1, 1, 1, 1], 5⟩ 3 (fun b => b)
      = (fun b => b) (specDelayBound ⟨[1, 1, 1, 1], 5⟩ 3) :=
  C6_delay_matches_spec_formula ⟨[1, 1, 1, 1], 5⟩ 3 (fun b => b)
    (Or.inr (by simp))

/-- C10: `Jitter::jitter(freq)` is total exactly on positive frequencies:
for `freq > 0` it returns the finite positive duration `1 / (freq * a)`
seconds, while at `freq = 0` the intermediate `f64` value is infinite and
the `Duration` construction panics (modelled as `none`). -/
theorem C10_jitter_totality :
    (∀ freq : ℝ, 0 < freq →
        jitterChecked freq = some (jitterOf freq) ∧ 0 < jitterOf freq)
    ∧ jitterChecked 0 = none := by
  constructor
  · intro f hf
    have hfa : 0 < f * jitterA := mul_pos hf jitterA_pos
    constructor
    · rw [jitterChecked, if_pos hfa]
    · rw [jitterOf]
      exact one_div_pos.mpr hfa
  · rw [jitterChecked]
    simp

/-- Witness instantiating C10 at frequency 1. -/
theorem C10_jitter_totality_witness :
    jitterChecked 1 = some (jitterOf 1) :=
  (C10_jitter_totality.1 1 (by norm_num)).1

/-! ## Claims about the payload builder -/

/-- C7 fails on the code: the generic-device path keys the visible block on
`room_id` presence alone, not on the spec's counts-only formula. The
notification below is counts-only by the claim's own definition (counts
present, unread 0), yet — because a room id is present — the payload built
for a generic device carries a visible title/body block. -/
theorem C7_counterexample :
    countsOnlyClaim
        ⟨some ("$e".toList), some ("!r".toList), none, some ⟨some 0, none⟩,
          none, [⟨"app".toList, "pk".toList, none, none⟩], none⟩ = true
    ∧ Device.data_message_type ⟨"app".toList, "pk".toList, none, none⟩
        = DataMessageType.None
    ∧ ((push_notification_fcm (⟨"app".toList, 0, "T".toList, "B".toList⟩ : Settings)
          ⟨some ("$e".toList), some ("!r".toList), none, some ⟨some 0, none⟩,
            none, [⟨"app".toList, "pk".toList, none, none⟩], none⟩
          ⟨"app".toList, "pk".toList, none, none⟩).toOption.map
        (fun p => p.notification.isSome)) = some true := by decide

/-- C7 (amended): for a generic (non-data-message) device with a valid app
id, the payload succeeds and carries a visible title/body block precisely
when the notification has a room id; it never carries a data block, and its
APNS badge equals the unread count, defaulting to 0. In particular a
notification without a room id yields a badge-only payload. -/
theorem C7_amended_generic_payload (s : Settings) (n : Notification)
    (device : Device)
    (happ : s.app_id.isPrefixOf device.app_id = true)
    (hgen : device.data_message_type = DataMessageType.None) :
    ∃ p, push_notification_fcm s n device = Except.ok p
      ∧ p.notification.isSome = n.room_id.isSome
      ∧ p.dataBlock = none
      ∧ p.apnsBadge = some n.unreadOrDefault := by
  rw [push_notification_fcm]
  simp only [happ, not_true, if_false, hgen]
  refine ⟨_, rfl, ?_, rfl, rfl⟩
  by_cases hr : n.room_id.isSome <;> simp [hr]

/-- Witness instantiating the amended C7 at the spec's badge-only scenario:
unread 0, no event id, no room id, generic device. -/
theorem C7_amended_generic_payload_witness :
    ∃ p, push_notification_fcm
          (⟨"app".toList, 0, "T".toList, "B".toList⟩ : Settings)
          ⟨none, none, none, some ⟨some 0, none⟩, none,
            [⟨"app".toList, "pk".toList, none, none⟩], none⟩
          ⟨"app".toList, "pk".toList, none, none⟩ = Except.ok p
      ∧ p.notification.isSome
          = (Option.isSome
              (α := Str) none)
      ∧ p.dataBlock = none
      ∧ p.apnsBadge = some (Notification.unreadOrDefault
          ⟨none, none, none, some ⟨some 0, none⟩, none,
            [⟨"app".toList, "pk".toList, none, none⟩], none⟩) :=
  C7_amended_generic_payload
    ⟨"app".toList, 0, "T".toList, "B".toList⟩
    ⟨none, none, none, some ⟨some 0, none⟩, none,
      [⟨"app".toList, "pk".toList, none, none⟩], none⟩
    ⟨"app".toList, "pk".toList, none, none⟩ (by decide) (by decide)

end Hedwig
